import Mathlib

/-!
Shallow embedding of `faust/utils/objects.py`: the reverse-MRO class walker
`iter_mro_reversed` and the `cached_property` descriptor, together with
theorems settling the specification claims about them.

Python classes are modelled by an identifier together with their method
resolution order (a list of identifiers, most specific first, in which the
class itself is the head).  Python instances are modelled by their
`__dict__`, an association list from attribute names to values with unique
keys (the dictionary invariant is taken as a hypothesis where a proof needs
it).  Exceptions raised by user callables are modelled with `Except`.
-/

namespace Faust

/-- A Python class: its identity and its `__mro__` (method resolution
order), a list of class identifiers starting with the class itself. -/
structure PyClass where
  id : Nat
  mro : List Nat
deriving DecidableEq, Repr

/-- The loop body of `iter_mro_reversed`: walk the (already reversed) MRO
with the `wanted` flag; while the flag is off, a class is not yielded and
the flag becomes `subcls == stop`; once on, every class is yielded. -/
def mroLoop (stop : Nat) : Bool → List Nat → List Nat
  | _, [] => []
  | true, subcls :: rest => subcls :: mroLoop stop true rest
  | false, subcls :: rest => mroLoop stop (subcls == stop) rest

/-- `iter_mro_reversed(cls, stop)`: iterate over `reversed(cls.__mro__)`
with the `wanted` flag initially off. -/
def iter_mro_reversed (cls : PyClass) (stop : Nat) : List Nat :=
  mroLoop stop false cls.mro.reverse

/-- A Python instance, reduced to its `__dict__`. -/
structure Inst (V : Type) where
  dict : List (String × V)
deriving DecidableEq, Repr

/-- `obj.__dict__[k]`, as an option. -/
def dictLookup {V : Type} (d : List (String × V)) (k : String) : Option V :=
  match d with
  | [] => none
  | (k₀, v₀) :: rest => if k₀ = k then some v₀ else dictLookup rest k

/-- `obj.__dict__[k] = v`: replace the binding for `k`, or append it. -/
def dictInsert {V : Type} (d : List (String × V)) (k : String) (v : V) :
    List (String × V) :=
  match d with
  | [] => [(k, v)]
  | (k₀, v₀) :: rest =>
    if k₀ = k then (k, v) :: rest else (k₀, v₀) :: dictInsert rest k v

/-- `obj.__dict__.pop(k, sentinel)`: the popped value (if any, in place of
the sentinel) and the remaining dictionary. -/
def dictPop {V : Type} (d : List (String × V)) (k : String) :
    Option V × List (String × V) :=
  match d with
  | [] => (none, [])
  | (k₀, v₀) :: rest =>
    if k₀ = k then (some v₀, rest)
    else ((dictPop rest k).1, (k₀, v₀) :: (dictPop rest k).2)

/-- A Python function object as the descriptor sees it: the callable plus
its `__doc__`, `__name__` and `__module__` attributes. -/
structure PyFun (V : Type) where
  call : Inst V → V
  doc : Option String
  name : String
  module : String

/-- Python `a or b` on optional strings: `None` and the empty string are
falsy. -/
def pyOrStr (a b : Option String) : Option String :=
  match a with
  | none => b
  | some s => if s = "" then b else some s

/-- Errors that the embedded code itself can raise. -/
inductive PyErr where
  | attributeError
deriving DecidableEq, Repr

/-- The `cached_property` descriptor after successful construction: the
compute function `fget` (mandatory in practice, see
`cached_property.init`), the optional setter and delete-hook, and the
metadata copied from `fget` by `__init__`. -/
structure cached_property (V : Type) where
  fget : PyFun V
  fset : Option (Inst V → V → V)
  fdel : Option (Inst V → V → Except String Unit)
  doc : Option String
  name : String
  module : String
  class_attribute : Option String

/-- `cached_property.__init__`: with `fget=None` the assignments
`self.__doc__ = doc or fget.__doc__` / `self.__name__ = fget.__name__`
dereference `None` and raise `AttributeError` during construction;
otherwise the descriptor is built with `__doc__ = doc or fget.__doc__`,
`__name__ = fget.__name__`, `__module__ = fget.__module__`. -/
def cached_property.init {V : Type} (fget : Option (PyFun V))
    (fset : Option (Inst V → V → V))
    (fdel : Option (Inst V → V → Except String Unit))
    (doc : Option String) (class_attribute : Option String) :
    Except PyErr (cached_property V) :=
  match fget with
  | none => .error .attributeError
  | some g => .ok ⟨g, fset, fdel, pyOrStr doc g.doc, g.name, g.module, class_attribute⟩

/-- Result of `__get__` on an instance: the returned value, the instance
afterwards, and how many times the compute function was invoked. -/
structure GetResult (V : Type) where
  value : V
  obj : Inst V
  computeCalls : Nat

/-- Result of `__get__` with `obj is None` (class-level access). -/
inductive ClassAccess (V : Type) where
  | descriptor
  | classAttr (attr : String)

/-- `cached_property.__get__` for `obj is None`: if a type is given and
`self.class_attribute` is truthy, return `getattr(type, class_attribute)`,
else the descriptor itself. -/
def cached_property.getOnNone {V : Type} (p : cached_property V)
    (type : Option Unit) : ClassAccess V :=
  match type, p.class_attribute with
  | some _, some s => if s = "" then .descriptor else .classAttr s
  | _, _ => .descriptor

/-- `cached_property.__get__` for an instance: return the cached value
from `obj.__dict__[self.__name__]` if present, otherwise compute it with
`self.__get(obj)`, store it there and return it. -/
def cached_property.get {V : Type} (p : cached_property V) (obj : Inst V) :
    GetResult V :=
  match dictLookup obj.dict p.name with
  | some v => ⟨v, obj, 0⟩
  | none =>
    let value := p.fget.call obj
    ⟨value, ⟨dictInsert obj.dict p.name value⟩, 1⟩

/-- `cached_property.__set__`: pass the value through the custom setter if
one is configured, then store it in `obj.__dict__[self.__name__]`. -/
def cached_property.set {V : Type} (p : cached_property V) (obj : Inst V)
    (value : V) : Inst V :=
  match p.fset with
  | some f => ⟨dictInsert obj.dict p.name (f obj value)⟩
  | none => ⟨dictInsert obj.dict p.name value⟩

/-- Result of `__delete__`: the instance afterwards, the value the
delete-hook was invoked with (if it was), and the exception propagated
from the hook (if it raised). -/
structure DeleteResult (V : Type) where
  obj : Inst V
  hookArg : Option V
  exn : Option String

/-- `cached_property.__delete__`: pop `obj.__dict__[self.__name__]` with a
sentinel default; if a delete-hook is configured and a value was actually
popped, invoke the hook with the (already popped) instance and the value.
An exception from the hook propagates, the pop having already happened. -/
def cached_property.delete {V : Type} (p : cached_property V)
    (obj : Inst V) : DeleteResult V :=
  match dictPop obj.dict p.name with
  | (some value, dict₀) =>
    match p.fdel with
    | some f =>
      match f ⟨dict₀⟩ value with
      | .ok _ => ⟨⟨dict₀⟩, some value, none⟩
      | .error e => ⟨⟨dict₀⟩, some value, some e⟩
    | none => ⟨⟨dict₀⟩, none, none⟩
  | (none, _) => ⟨obj, none, none⟩

/-- `cached_property.setter`: `self.__class__(self.__get, fset, self.__del)`
— a fresh descriptor with the given setter; `doc` and `class_attribute`
are not passed along. -/
def cached_property.setter {V : Type} (p : cached_property V)
    (fset : Inst V → V → V) : Except PyErr (cached_property V) :=
  cached_property.init (some p.fget) (some fset) p.fdel none none

/-- `cached_property.deleter`: `self.__class__(self.__get, self.__set, fdel)`
— a fresh descriptor with the given delete-hook; `doc` and
`class_attribute` are not passed along. -/
def cached_property.deleter {V : Type} (p : cached_property V)
    (fdel : Inst V → V → Except String Unit) : Except PyErr (cached_property V) :=
  cached_property.init (some p.fget) p.fset (some fdel) none none

/-! ## Lemmas about the MRO walk -/

theorem mroLoop_true (stop : Nat) (l : List Nat) : mroLoop stop true l = l := by
  induction l with
  | nil => rfl
  | cons x xs ih => simp [mroLoop, ih]

theorem mroLoop_false_of_not_mem (stop : Nat) (l : List Nat) (h : stop ∉ l) :
    mroLoop stop false l = [] := by
  induction l with
  | nil => rfl
  | cons x xs ih =>
    simp only [List.mem_cons, not_or] at h
    have hx : (x == stop) = false := by
      simp [Ne.symm h.1]
    rw [mroLoop, hx]
    exact ih h.2

theorem mroLoop_false_append (stop : Nat) (l₁ l₂ : List Nat) (h : stop ∉ l₁) :
    mroLoop stop false (l₁ ++ l₂) = mroLoop stop false l₂ := by
  induction l₁ with
  | nil => rfl
  | cons x xs ih =>
    simp only [List.mem_cons, not_or] at h
    have hx : (x == stop) = false := by
      simp [Ne.symm h.1]
    rw [List.cons_append, mroLoop, hx]
    exact ih h.2

/-! ## Claims about the linearization walker -/

/-- Claim C1 counterexample: for the class `C` with identifier `0` and
linearization `[0]`, walking with the stop type equal to the target type
yields the empty sequence, not `[C]`. -/
theorem walk_self_stop_cex :
    iter_mro_reversed ⟨0, [0]⟩ 0 = [] ∧ ([] : List Nat) ≠ [0] := by
  constructor
  · rfl
  · decide

/-- Claim C1 (amended): for every class `C` whose linearization starts with
`C` itself and mentions `C` only there, walking with the stop type equal to
the target type yields the empty sequence — the target itself only turns
the `wanted` flag on, and nothing follows it in the reversed order. -/
theorem walk_self_stop (cls : PyClass) (rest : List Nat)
    (hm : cls.mro = cls.id :: rest) (hid : cls.id ∉ rest) :
    iter_mro_reversed cls cls.id = [] := by
  unfold iter_mro_reversed
  rw [hm, List.reverse_cons,
    mroLoop_false_append cls.id rest.reverse [cls.id] (by simpa using hid)]
  simp [mroLoop]

theorem walk_self_stop_witness : iter_mro_reversed ⟨0, [0, 1]⟩ 0 = [] :=
  walk_self_stop ⟨0, [0, 1]⟩ [1] rfl (by decide)

/-- Claim C3: for a class chain `A → B → C` — the target `C` has
linearization `C :: B :: A :: rest` with `A` not repeated in `rest` —
walking `C` with stop `A` yields exactly `[B, C]`, and (when `B` is not
`A` nor repeated in `rest`) walking `C` with stop `B` yields `[C]`. -/
theorem walk_chain (a b c : Nat) (rest : List Nat)
    (ha : a ∉ rest) (hb : b ∉ rest) (hba : b ≠ a) :
    iter_mro_reversed ⟨c, [c, b, a] ++ rest⟩ a = [b, c] ∧
    iter_mro_reversed ⟨c, [c, b, a] ++ rest⟩ b = [c] := by
  unfold iter_mro_reversed
  simp only [List.reverse_append]
  have hrev : ([c, b, a] : List Nat).reverse = [a, b, c] := by rfl
  rw [hrev]
  constructor
  · rw [mroLoop_false_append a rest.reverse [a, b, c] (by simpa using ha)]
    simp [mroLoop, mroLoop_true]
  · rw [mroLoop_false_append b rest.reverse [a, b, c] (by simpa using hb)]
    have hab : (a == b) = false := by
      simp [Ne.symm hba]
    rw [mroLoop, hab, mroLoop]
    simp [mroLoop_true]

theorem walk_chain_witness :
    iter_mro_reversed ⟨3, [3, 2, 1] ++ [0]⟩ 1 = [2, 3] ∧
    iter_mro_reversed ⟨3, [3, 2, 1] ++ [0]⟩ 2 = [3] :=
  walk_chain 1 2 3 [0] (by decide) (by decide) (by decide)

/-- Claim C4: if the stop type occurs nowhere in the target class's
linearization, the walk yields the empty sequence. -/
theorem walk_stop_absent (cls : PyClass) (stop : Nat) (h : stop ∉ cls.mro) :
    iter_mro_reversed cls stop = [] :=
  mroLoop_false_of_not_mem stop cls.mro.reverse (by simpa using h)

theorem walk_stop_absent_witness : iter_mro_reversed ⟨2, [2, 1, 0]⟩ 7 = [] :=
  walk_stop_absent ⟨2, [2, 1, 0]⟩ 7 (by decide)

/-! ## Lemmas about the instance dictionary -/

theorem dictLookup_insert_self {V : Type} (d : List (String × V)) (k : String)
    (v : V) : dictLookup (dictInsert d k v) k = some v := by
  induction d with
  | nil => simp [dictInsert, dictLookup]
  | cons p rest ih =>
    by_cases hk : p.1 = k
    · simp [dictInsert, dictLookup, hk]
    · simp [dictInsert, dictLookup, hk, ih]

theorem dictPop_fst {V : Type} (d : List (String × V)) (k : String) :
    (dictPop d k).1 = dictLookup d k := by
  induction d with
  | nil => rfl
  | cons p rest ih =>
    by_cases hk : p.1 = k
    · simp [dictPop, dictLookup, hk]
    · simp [dictPop, dictLookup, hk, ih]

theorem dictLookup_eq_none_of_not_mem {V : Type} (d : List (String × V))
    (k : String) (h : k ∉ d.map Prod.fst) : dictLookup d k = none := by
  induction d with
  | nil => rfl
  | cons p rest ih =>
    simp only [List.map_cons, List.mem_cons, not_or] at h
    simp [dictLookup, Ne.symm h.1, ih h.2]

theorem dictLookup_pop_snd {V : Type} (d : List (String × V)) (k : String)
    (hnd : (d.map Prod.fst).Nodup) : dictLookup (dictPop d k).2 k = none := by
  induction d with
  | nil => rfl
  | cons p rest ih =>
    simp only [List.map_cons, List.nodup_cons] at hnd
    by_cases hk : p.1 = k
    · simp only [dictPop, hk, if_pos rfl]
      exact dictLookup_eq_none_of_not_mem rest k (hk ▸ hnd.1)
    · simp [dictPop, dictLookup, hk, ih hnd.2]

/-! ## Claims about the cached property -/

/-- Claim C2 counterexample: constructing a `cached_property` with no
compute function does not succeed — `__init__` dereferences `None` for
`fget.__doc__` / `fget.__name__` and raises `AttributeError` right away,
so no error is left to surface at a first read. -/
theorem init_none_cex :
    cached_property.init (V := Nat) none none none none none =
      .error .attributeError := by
  rfl

/-- Claim C2 (amended): constructing a cached attribute descriptor without
a compute function fails immediately at construction time with an
attribute error, for every combination of the remaining arguments; the
configuration error is never deferred to a read, since no descriptor is
produced at all. -/
theorem init_none_errors {V : Type} (fset : Option (Inst V → V → V))
    (fdel : Option (Inst V → V → Except String Unit))
    (doc : Option String) (class_attribute : Option String) :
    cached_property.init none fset fdel doc class_attribute =
      .error .attributeError := by
  rfl

/-- Claim C5: when the attribute is not yet cached, the first read invokes
the compute function exactly once, and a second read with no intervening
write or delete invokes it zero further times, returning the identical
stored value and leaving the instance unchanged. -/
theorem get_idempotent {V : Type} (p : cached_property V) (obj : Inst V)
    (h : dictLookup obj.dict p.name = none) :
    (cached_property.get p obj).computeCalls = 1 ∧
    (cached_property.get p (cached_property.get p obj).obj).computeCalls = 0 ∧
    (cached_property.get p (cached_property.get p obj).obj).value =
      (cached_property.get p obj).value ∧
    (cached_property.get p (cached_property.get p obj).obj).obj =
      (cached_property.get p obj).obj := by
  simp [cached_property.get, h, dictLookup_insert_self]

/-- A sample compute function for concrete instantiations. -/
def sampleFun : PyFun Nat :=
  ⟨fun obj => obj.dict.length + 7, some "sample compute", "conn", "sample"⟩

/-- A sample descriptor with neither setter nor delete-hook. -/
def sampleProp : cached_property Nat :=
  ⟨sampleFun, none, none, some "sample compute", "conn", "sample", none⟩

/-- A delete-hook that always raises. -/
def raisingHook : Inst Nat → Nat → Except String Unit :=
  fun _ _ => .error "boom"

/-- A sample descriptor whose delete-hook always raises. -/
def samplePropRaising : cached_property Nat :=
  ⟨sampleFun, none, some raisingHook, some "sample compute", "conn", "sample", none⟩

theorem get_idempotent_witness :
    (cached_property.get sampleProp ⟨[]⟩).computeCalls = 1 ∧
    (cached_property.get sampleProp (cached_property.get sampleProp ⟨[]⟩).obj).computeCalls = 0 ∧
    (cached_property.get sampleProp (cached_property.get sampleProp ⟨[]⟩).obj).value =
      (cached_property.get sampleProp ⟨[]⟩).value ∧
    (cached_property.get sampleProp (cached_property.get sampleProp ⟨[]⟩).obj).obj =
      (cached_property.get sampleProp ⟨[]⟩).obj :=
  get_idempotent sampleProp ⟨[]⟩ rfl

/-- Claim C6: writing a value and then reading returns exactly the stored
value — the raw value with no custom setter, the setter's return value with
one — with the compute function invoked zero times by that read. -/
theorem set_then_get {V : Type} (p : cached_property V) (obj : Inst V) (v : V) :
    cached_property.get p (cached_property.set p obj v) =
      ⟨p.fset.elim v (fun f => f obj v), cached_property.set p obj v, 0⟩ := by
  cases hf : p.fset <;>
    simp [cached_property.get, cached_property.set, hf, dictLookup_insert_self,
      Option.elim]

/-- Claim C7: deleting a cached value removes it from the instance's
storage, and the next read invokes the compute function again (once)
rather than serving the deleted value. -/
theorem delete_then_get {V : Type} (p : cached_property V) (obj : Inst V)
    (v : V) (hnd : (obj.dict.map Prod.fst).Nodup)
    (h : dictLookup obj.dict p.name = some v) :
    dictLookup (cached_property.delete p obj).obj.dict p.name = none ∧
    (cached_property.get p (cached_property.delete p obj).obj).computeCalls = 1 := by
  rcases hp : dictPop obj.dict p.name with ⟨pv, pd⟩
  have hpv : pv = some v := by
    have h1 := dictPop_fst obj.dict p.name
    rw [hp, h] at h1
    exact h1
  subst hpv
  have hnone : dictLookup pd p.name = none := by
    have h2 := dictLookup_pop_snd obj.dict p.name hnd
    rw [hp] at h2
    exact h2
  cases hf : p.fdel with
  | none =>
    simp [cached_property.delete, cached_property.get, hp, hf, hnone]
  | some f =>
    cases hr : f ⟨pd⟩ v <;>
      simp [cached_property.delete, cached_property.get, hp, hf, hr, hnone]

theorem delete_then_get_witness :
    dictLookup (cached_property.delete sampleProp ⟨[("conn", 5)]⟩).obj.dict
      sampleProp.name = none ∧
    (cached_property.get sampleProp
      (cached_property.delete sampleProp ⟨[("conn", 5)]⟩).obj).computeCalls = 1 :=
  delete_then_get sampleProp ⟨[("conn", 5)]⟩ 5 (by decide) rfl

/-- Claim C8: when no value is cached for the attribute, a delete never
invokes the configured delete-hook. -/
theorem delete_no_cached {V : Type} (p : cached_property V) (obj : Inst V)
    (h : dictLookup obj.dict p.name = none) :
    (cached_property.delete p obj).hookArg = none := by
  rcases hp : dictPop obj.dict p.name with ⟨pv, pd⟩
  have hpv : pv = none := by
    have h1 := dictPop_fst obj.dict p.name
    rw [hp, h] at h1
    exact h1
  subst hpv
  simp [cached_property.delete, hp]

theorem delete_no_cached_witness :
    (cached_property.delete samplePropRaising ⟨[]⟩).hookArg = none :=
  delete_no_cached samplePropRaising ⟨[]⟩ rfl

/-- Claim C9: the descriptors produced by `setter` and `deleter` carry no
class-level fallback (`class_attribute` is `None`, not the original's),
and their documentation string is recomputed from the compute function's
`__doc__` rather than preserved from the original descriptor. -/
theorem rebind_drops_class_attribute {V : Type} (p : cached_property V)
    (fs : Inst V → V → V) (fd : Inst V → V → Except String Unit) :
    (cached_property.setter p fs).map (fun q => (q.class_attribute, q.doc)) =
      .ok (none, p.fget.doc) ∧
    (cached_property.deleter p fd).map (fun q => (q.class_attribute, q.doc)) =
      .ok (none, p.fget.doc) := by
  constructor <;>
    simp [cached_property.setter, cached_property.deleter, cached_property.init,
      Except.map, pyOrStr]

/-- Claim C10: when a cached value exists and the delete-hook raises, the
cached value is removed from the instance's storage before the hook runs,
so the exception propagates with the attribute already uncached. -/
theorem delete_hook_raises {V : Type} (p : cached_property V) (obj : Inst V)
    (v : V) (f : Inst V → V → Except String Unit) (e : String)
    (hnd : (obj.dict.map Prod.fst).Nodup)
    (h : dictLookup obj.dict p.name = some v)
    (hdel : p.fdel = some f)
    (hraise : f ⟨(dictPop obj.dict p.name).2⟩ v = .error e) :
    (cached_property.delete p obj).exn = some e ∧
    dictLookup (cached_property.delete p obj).obj.dict p.name = none := by
  rcases hp : dictPop obj.dict p.name with ⟨pv, pd⟩
  have hpv : pv = some v := by
    have h1 := dictPop_fst obj.dict p.name
    rw [hp, h] at h1
    exact h1
  subst hpv
  have hnone : dictLookup pd p.name = none := by
    have h2 := dictLookup_pop_snd obj.dict p.name hnd
    rw [hp] at h2
    exact h2
  rw [hp] at hraise
  simp only [] at hraise
  simp [cached_property.delete, hp, hdel, hraise, hnone]

theorem delete_hook_raises_witness :
    (cached_property.delete samplePropRaising ⟨[("conn", 5)]⟩).exn = some "boom" ∧
    dictLookup (cached_property.delete samplePropRaising ⟨[("conn", 5)]⟩).obj.dict
      samplePropRaising.name = none :=
  delete_hook_raises samplePropRaising ⟨[("conn", 5)]⟩ 5 raisingHook "boom"
    (by decide) rfl rfl rfl

end Faust
